import Mathlib

/-!
Verification of the MXP TypeScript SDK core against its specification.

The development shallowly embeds the relevant source files:
  - utils.ts        (bytesToBigInt, bigIntToBytes, xxhash64)
  - message.ts      (Message class and factory helpers)
  - codec.ts        (encode, encodeHeader, decode, decodeRaw, decodeHeader)
  - a2a/types.ts    (Role, Part, Message with JSON serialization)
  - a2a/task.ts     (TaskState, TaskStatus, Task)
  - agent-card.ts   (AgentCard, AgentCapabilities, AgentSkill)
  - a2a/convert.ts  (toMxp, fromMxp)
  - signaling.ts    (InMemorySignalingHub)

Bytes are modelled as Nat (the sources use Uint8Array entries and JS
BigInt, which is arbitrary-precision; masking in the source is explicit
and is carried over literally).  Randomness (crypto.getRandomValues,
uuid) is modelled by passing the freshly drawn values as explicit
arguments.  JSON text serialization (JSON.stringify / JSON.parse /
TextEncoder) is modelled at the level of JSON values: an inductive
`Json` type stands for the serialized document.
-/

namespace Mxp

/-- From utils.ts: convert a little-endian byte array to an unsigned
integer.  The source loops from the last index down, shifting left by 8
and or-ing each byte in. -/
def bytesToBigInt (bytes : List Nat) : Nat :=
  bytes.foldr (fun b acc => (acc <<< 8) ||| b) 0

/-- From utils.ts: convert an unsigned integer to `length` little-endian
bytes, taking the low 8 bits at each step. -/
def bigIntToBytes (value : Nat) : Nat → List Nat
  | 0 => []
  | n + 1 => (value &&& 0xff) :: bigIntToBytes (value >>> 8) n

/-- From utils.ts: the checksum hash.  For each byte `b`:
`hash ^= b * prime1; hash &= mask64;
 hash = (((hash << 31) | (hash >> 33)) * prime2) & mask64`. -/
def xxhash64 (data : List Nat) : Nat :=
  data.foldl
    (fun hash b =>
      let h1 := (hash ^^^ (b * 11400714785074694791)) &&& 0xffffffffffffffff
      (((h1 <<< 31) ||| (h1 >>> 33)) * 14029467366897019727) &&& 0xffffffffffffffff)
    0

/-- Modelled from the spec's words (§4.1), for comparison with the
source's `xxhash64`: 64-bit rotate left by 31 of a 64-bit value. -/
def rotl31 (x : Nat) : Nat := ((x <<< 31) % 2 ^ 64) ||| (x >>> 33)

/-- Modelled from the spec's words (§4.1), for comparison with the
source's `xxhash64`: `h = (h XOR (b * P1)) mask64`, then rotate left 31
and multiply by `P2`, masking to 64 bits. -/
def xxhash64Spec (data : List Nat) : Nat :=
  data.foldl
    (fun h b =>
      (rotl31 ((h ^^^ (b * 11400714785074694791)) % 2 ^ 64) * 14029467366897019727) % 2 ^ 64)
    0

/-! ## Frame model (message.ts) -/

/- Message type identifiers from message.ts (a TS numeric enum; decode
stores the raw byte, so the model uses plain `Nat` values). -/
namespace MessageType

def Call : Nat := 0x01
def Response : Nat := 0x02
def Error : Nat := 0x03
def Notify : Nat := 0x04
def StreamOpen : Nat := 0x10
def StreamChunk : Nat := 0x11
def StreamClose : Nat := 0x12
def AgentRegister : Nat := 0x20
def AgentDiscover : Nat := 0x21
def AgentHeartbeat : Nat := 0x22
def Ping : Nat := 0xF0
def Pong : Nat := 0xF1

end MessageType

/-- Optional constructor arguments of the `Message` class. -/
structure MessageOptions where
  flags : Option Nat := none
  priority : Option Nat := none
  traceId : Option Nat := none
  correlationId : Option Nat := none
deriving DecidableEq

/-- The `Message` class of message.ts, parameterized by the payload
type: the wire codec uses byte payloads (`List Nat`), the A2A bridge is
modelled with JSON-value payloads. -/
structure Frame (α : Type) where
  version : Nat
  messageType : Nat
  flags : Nat
  priority : Nat
  messageId : Nat
  traceId : Nat
  correlationId : Nat
  payload : α
deriving DecidableEq

/-- A wire frame: the `Message` class with a byte payload. -/
abbrev Message := Frame (List Nat)

/-- The `Message` constructor.  `freshMessageId` and `freshTraceId` are
the values drawn from `generateMessageId()` / `generateTraceId()`;
`version` is always 1; absent options default to flags 0, priority 0,
the fresh trace id, and correlation id 0. -/
def Frame.make {α : Type} (freshMessageId freshTraceId : Nat) (messageType : Nat)
    (payload : α) (options : MessageOptions) : Frame α :=
  { version := 1
    messageType := messageType
    flags := options.flags.getD 0
    priority := options.priority.getD 0
    messageId := freshMessageId
    traceId := options.traceId.getD freshTraceId
    correlationId := options.correlationId.getD 0
    payload := payload }

/-- `Message.call(payload, options)`. -/
def Message.call (freshMessageId freshTraceId : Nat) (payload : List Nat)
    (priority traceId : Option Nat) : Message :=
  Frame.make freshMessageId freshTraceId MessageType.Call payload
    { priority := priority, traceId := traceId }

/-- `Message.response(payload, correlationId, options)`. -/
def Message.response (freshMessageId freshTraceId : Nat) (payload : List Nat)
    (correlationId : Nat) (traceId : Option Nat) : Message :=
  Frame.make freshMessageId freshTraceId MessageType.Response payload
    { traceId := traceId, correlationId := some correlationId }

/-- `Message.error(payload, correlationId, options)`. -/
def Message.error (freshMessageId freshTraceId : Nat) (payload : List Nat)
    (correlationId : Nat) (traceId : Option Nat) : Message :=
  Frame.make freshMessageId freshTraceId MessageType.Error payload
    { traceId := traceId, correlationId := some correlationId }

/-- `Message.streamOpen(payload, options)`. -/
def Message.streamOpen (freshMessageId freshTraceId : Nat) (payload : List Nat)
    (traceId : Option Nat) : Message :=
  Frame.make freshMessageId freshTraceId MessageType.StreamOpen payload
    { traceId := traceId }

/-- `Message.streamChunk(payload, correlationId, options)`. -/
def Message.streamChunk (freshMessageId freshTraceId : Nat) (payload : List Nat)
    (correlationId : Nat) (traceId : Option Nat) : Message :=
  Frame.make freshMessageId freshTraceId MessageType.StreamChunk payload
    { traceId := traceId, correlationId := some correlationId }

/-- `Message.streamClose(correlationId, options)`: empty payload. -/
def Message.streamClose (freshMessageId freshTraceId : Nat)
    (correlationId : Nat) (traceId : Option Nat) : Message :=
  Frame.make freshMessageId freshTraceId MessageType.StreamClose []
    { traceId := traceId, correlationId := some correlationId }

/-- `Message.ping()`: empty payload, no options. -/
def Message.ping (freshMessageId freshTraceId : Nat) : Message :=
  Frame.make freshMessageId freshTraceId MessageType.Ping [] {}

/-- `Message.pong(ping)`: empty payload, correlation id is the ping's
message id, trace id inherited from the ping. -/
def Message.pong (freshMessageId freshTraceId : Nat) (ping : Message) : Message :=
  Frame.make freshMessageId freshTraceId MessageType.Pong []
    { traceId := some ping.traceId, correlationId := some ping.messageId }

/-- `isStreaming()` from message.ts. -/
def Message.isStreaming (m : Message) : Bool :=
  m.messageType == MessageType.StreamOpen ||
  m.messageType == MessageType.StreamChunk ||
  m.messageType == MessageType.StreamClose

/-- `requiresResponse()` from message.ts. -/
def Message.requiresResponse (m : Message) : Bool :=
  m.messageType == MessageType.Call || m.messageType == MessageType.Ping

/-! ## Codec (codec.ts, types.ts) -/

/-- The decoded header structure from types.ts. -/
structure MessageHeader where
  version : Nat
  messageType : Nat
  flags : Nat
  priority : Nat
  messageId : Nat
  traceId : Nat
  correlationId : Nat
  payloadLength : Nat
  checksum : Nat
deriving DecidableEq

/-- The errors thrown by the codec: `decode` throws on short input,
`decodeHeader` on a short header slice, `decodeRaw` on checksum
mismatch. -/
inductive DecodeError where
  | tooShort
  | headerTooShort
  | checksumMismatch
deriving DecidableEq

/-- `encodeHeader(message)`: the 64-byte header.  Byte writes truncate
to 8 bits (DataView.setUint8); multi-byte fields are little-endian;
the 4-byte reserved block, 12-byte reserved block, and final 8 bytes
stay zero; the checksum of the payload is written at offset 48. -/
def encodeHeader (m : Message) : List Nat :=
  [m.version % 256, m.messageType % 256, m.flags % 256, m.priority % 256, 0, 0, 0, 0]
    ++ (bigIntToBytes m.messageId 8
    ++ (bigIntToBytes m.traceId 8
    ++ (bigIntToBytes m.correlationId 8
    ++ (bigIntToBytes m.payload.length 4
    ++ ([0, 0, 0, 0, 0, 0, 0, 0, 0, 0, 0, 0]
    ++ (bigIntToBytes (xxhash64 m.payload) 8
    ++ [0, 0, 0, 0, 0, 0, 0, 0]))))))

/-- `encode(message)`: header followed by the payload (the `bytes`
field of the returned EncodedMessage). -/
def encode (m : Message) : List Nat :=
  encodeHeader m ++ m.payload

/-- `decodeHeader(headerBytes)`: fails when fewer than 64 bytes are
supplied, otherwise reads the fields at their offsets. -/
def decodeHeader (headerBytes : List Nat) : Except DecodeError MessageHeader :=
  if headerBytes.length < 64 then
    .error .headerTooShort
  else
    .ok
      { version := headerBytes.getD 0 0
        messageType := headerBytes.getD 1 0
        flags := headerBytes.getD 2 0
        priority := headerBytes.getD 3 0
        messageId := bytesToBigInt ((headerBytes.drop 8).take 8)
        traceId := bytesToBigInt ((headerBytes.drop 16).take 8)
        correlationId := bytesToBigInt ((headerBytes.drop 24).take 8)
        payloadLength := bytesToBigInt ((headerBytes.drop 32).take 4)
        checksum := bytesToBigInt ((headerBytes.drop 48).take 8) }

/-- `decodeRaw(bytes)`: decode the first 64 bytes as the header, slice
out `payloadLength` bytes of payload (clamped to the available bytes,
as Uint8Array.slice does), and verify the checksum. -/
def decodeRaw (bytes : List Nat) : Except DecodeError (MessageHeader × List Nat) := do
  let header ← decodeHeader (bytes.take 64)
  let payload := (bytes.drop 64).take header.payloadLength
  if xxhash64 payload ≠ header.checksum then
    .error .checksumMismatch
  else
    .ok (header, payload)

/-- `decode(bytes)`: fail when shorter than the header, run
`decodeRaw`, build a `Message` from the header fields (the constructor
fixes `version := 1` and draws a fresh message id), then overwrite the
fresh message id with the decoded one. -/
def decode (freshMessageId freshTraceId : Nat) (bytes : List Nat) :
    Except DecodeError Message := do
  if bytes.length < 64 then
    .error .tooShort
  else
    let (header, payload) ← decodeRaw bytes
    let m := Frame.make freshMessageId freshTraceId header.messageType payload
      { flags := some header.flags
        priority := some header.priority
        traceId := some header.traceId
        correlationId := some header.correlationId }
    .ok { m with messageId := header.messageId }

/-- `encodedSize(message)` from codec.ts. -/
def encodedSize (m : Message) : Nat := 64 + m.payload.length

/-- A payload-length-valid, field-range-valid frame: version 1, a kind
from the §6.2 table, byte-sized flags and priority, 64-bit ids, and a
payload of at most 16 MiB (MXP_CONSTANTS.MAX_PAYLOAD_SIZE). -/
def valueValid (m : Message) : Prop :=
  m.version = 1 ∧
  m.messageType ∈ [0x01, 0x02, 0x03, 0x04, 0x10, 0x11, 0x12, 0x20, 0x21, 0x22, 0xF0, 0xF1] ∧
  m.flags < 256 ∧
  m.priority < 256 ∧
  m.messageId < 2 ^ 64 ∧
  m.traceId < 2 ^ 64 ∧
  m.correlationId < 2 ^ 64 ∧
  m.payload.length ≤ 16 * 1024 * 1024

instance (m : Message) : Decidable (valueValid m) := by
  unfold valueValid
  infer_instance

/-! ## JSON values

JSON.stringify / JSON.parse / TextEncoder are host-runtime facilities;
the development models serialized JSON documents as values of this
inductive type.  Objects are ordered key/value lists (JS object
properties in insertion order); properties whose value is `undefined`
are never inserted, mirroring JSON.stringify dropping them. -/

inductive Json where
  | null
  | bool (b : Bool)
  | num (n : Nat)
  | str (s : String)
  | arr (items : List Json)
  | obj (fields : List (String × Json))

/-- Property access `j.key` on a parsed JSON value: a lookup on an
object, `undefined` (here `none`) on anything else. -/
def Json.lookup (j : Json) (key : String) : Option Json :=
  match j with
  | .obj fields => fields.lookup key
  | _ => none

/-- A string-typed property (the effect of a TS `as string` cast on a
well-shaped document). -/
def Json.asStr : Json → Option String
  | .str s => some s
  | _ => none

/-- An array-typed property. -/
def Json.asArr : Json → Option (List Json)
  | .arr items => some items
  | _ => none

/-- An object-typed property (the effect of `as Record<string, unknown>`). -/
def Json.asObj : Json → Option (List (String × Json))
  | .obj fields => some fields
  | _ => none

/-- JS truthiness of a parsed JSON value (objects and arrays are always
truthy; `""`, `0`, `false` and `null` are falsy). -/
def Json.truthy : Json → Bool
  | .null => false
  | .bool b => b
  | .num n => n != 0
  | .str s => s != ""
  | .arr _ => true
  | .obj _ => true

/-- A list of strings read off a JSON array (`as string[]`). -/
def Json.asStrList (j : Json) : Option (List String) :=
  (j.asArr).bind (fun items => items.mapM Json.asStr)

/-! ## A2A model (a2a/types.ts) -/

namespace A2A

/- Role in a conversation (string enum). -/
inductive Role where
  | user
  | agent
deriving DecidableEq

/-- The string value of a role. -/
def Role.toStr : Role → String
  | .user => "user"
  | .agent => "agent"

/-- Reading a role off a JSON document (`json.role as Role`). -/
def Role.ofStr (s : String) : Option Role :=
  if s = "user" then some .user
  else if s = "agent" then some .agent
  else none

/- Kind of message part (string enum). -/
inductive PartKind where
  | text
  | file
  | data
deriving DecidableEq

/-- The string value of a part kind. -/
def PartKind.toStr : PartKind → String
  | .text => "text"
  | .file => "file"
  | .data => "data"

/-- Reading a part kind off a JSON document (`json.kind as PartKind`). -/
def PartKind.ofStr (s : String) : Option PartKind :=
  if s = "text" then some .text
  else if s = "file" then some .file
  else if s = "data" then some .data
  else none

/-- File data within a message part. -/
structure FileData where
  mimeType : String
  data : Option String
  uri : Option String
deriving DecidableEq

/-- The `Part` class: a kind tag and three optional content slots. -/
structure Part where
  kind : PartKind
  text : Option String
  file : Option FileData
  data : Option Json

/-- `Part.text(content)` (named mkText because `text` is the field
projection in Lean). -/
def Part.mkText (content : String) : Part :=
  ⟨.text, some content, none, none⟩

/-- `Part.fileInline(mimeType, base64Data)`. -/
def Part.mkFileInline (mimeType base64Data : String) : Part :=
  ⟨.file, none, some ⟨mimeType, some base64Data, none⟩, none⟩

/-- `Part.fileUri(mimeType, uri)`. -/
def Part.mkFileUri (mimeType uri : String) : Part :=
  ⟨.file, none, some ⟨mimeType, none, some uri⟩, none⟩

/-- `Part.data(content)` (named mkData because `data` is the field
projection in Lean). -/
def Part.mkData (content : Json) : Part :=
  ⟨.data, none, none, some content⟩

/-- `isText()`. -/
def Part.isText (p : Part) : Bool := p.kind == PartKind.text

/-- `asText()`. -/
def Part.asText (p : Part) : Option String := p.text

/-- Serialization of the raw FileData record: JSON.stringify keeps keys
in insertion order and drops `undefined` properties. -/
def FileData.toJSON (f : FileData) : Json :=
  .obj ([("mimeType", .str f.mimeType)]
    ++ (match f.data with | some d => [("data", .str d)] | none => [])
    ++ (match f.uri with | some u => [("uri", .str u)] | none => []))

/-- Reading FileData back off a parsed document (`json.file as
FileData`). -/
def FileData.fromJSON (j : Json) : Option FileData := do
  let mimeType ← (j.lookup "mimeType").bind Json.asStr
  some ⟨mimeType, (j.lookup "data").bind Json.asStr, (j.lookup "uri").bind Json.asStr⟩

/-- `Part.toJSON()`: the kind plus every content slot that is not
`undefined`. -/
def Part.toJSON (p : Part) : Json :=
  .obj ([("kind", .str p.kind.toStr)]
    ++ (match p.text with | some t => [("text", .str t)] | none => [])
    ++ (match p.file with | some f => [("file", f.toJSON)] | none => [])
    ++ (match p.data with | some d => [("data", d)] | none => []))

/-- `Part.fromJSON(json)`. -/
def Part.fromJSON (j : Json) : Option Part := do
  let kindStr ← (j.lookup "kind").bind Json.asStr
  let kind ← PartKind.ofStr kindStr
  let text := (j.lookup "text").bind Json.asStr
  let file ← match j.lookup "file" with
    | some fj => (FileData.fromJSON fj).map some
    | none => some none
  some ⟨kind, text, file, j.lookup "data"⟩

/-- Optional constructor arguments of the A2A `Message` class. -/
structure MessageOptions where
  contextId : Option String := none
  messageId : Option String := none
  taskId : Option String := none
  metadata : Option (List (String × Json)) := none

/-- The A2A `Message` class. -/
structure Message where
  role : Role
  parts : List Part
  contextId : String
  messageId : String
  taskId : Option String
  metadata : Option (List (String × Json))

/-- The A2A `Message` constructor; `contextId` and `messageId` default
to freshly generated uuids. -/
def Message.make (freshContextId freshMessageId : String) (role : Role)
    (parts : List Part) (options : MessageOptions) : Message :=
  { role := role
    parts := parts
    contextId := options.contextId.getD freshContextId
    messageId := options.messageId.getD freshMessageId
    taskId := options.taskId
    metadata := options.metadata }

/-- `Message.userText(text, options)`. -/
def Message.userText (freshContextId freshMessageId : String) (text : String)
    (options : MessageOptions) : Message :=
  Message.make freshContextId freshMessageId .user [Part.mkText text] options

/-- `Message.agentText(text, options)`. -/
def Message.agentText (freshContextId freshMessageId : String) (text : String)
    (options : MessageOptions) : Message :=
  Message.make freshContextId freshMessageId .agent [Part.mkText text] options

/-- `textContent()`: concatenation of the text of all text parts. -/
def Message.textContent (m : Message) : String :=
  String.join ((m.parts.filter Part.isText).map (fun p => (Part.asText p).getD ""))

/-- `Message.toJSON()`: role, parts, contextId, messageId always;
taskId and metadata only when truthy (a JS empty string is falsy and
is dropped). -/
def Message.toJSON (m : Message) : Json :=
  .obj ([("role", .str m.role.toStr),
         ("parts", .arr (m.parts.map Part.toJSON)),
         ("contextId", .str m.contextId),
         ("messageId", .str m.messageId)]
    ++ (match m.taskId with
        | some t => if t = "" then [] else [("taskId", .str t)]
        | none => [])
    ++ (match m.metadata with | some md => [("metadata", .obj md)] | none => []))

/-- `Message.fromJSON(json)`: parse the parts, pass everything else to
the constructor (absent keys fall back to the constructor's fresh
uuids). -/
def Message.fromJSON (freshContextId freshMessageId : String) (j : Json) :
    Option Message := do
  let roleStr ← (j.lookup "role").bind Json.asStr
  let role ← Role.ofStr roleStr
  let partsJson ← (j.lookup "parts").bind Json.asArr
  let parts ← partsJson.mapM Part.fromJSON
  some (Message.make freshContextId freshMessageId role parts
    { contextId := (j.lookup "contextId").bind Json.asStr
      messageId := (j.lookup "messageId").bind Json.asStr
      taskId := (j.lookup "taskId").bind Json.asStr
      metadata := (j.lookup "metadata").bind Json.asObj })

/-- The taskId-"" truncation that a JSON round trip applies to a
Message: an empty-string taskId is dropped by `toJSON` (JS falsiness)
and comes back as `undefined`. -/
def Message.jsonNormalize (m : Message) : Message :=
  { m with taskId := if m.taskId = some "" then none else m.taskId }

end A2A

/-! ## Tasks (a2a/task.ts) -/

/- Task state (string enum). -/
inductive TaskState where
  | submitted
  | working
  | inputRequired
  | completed
  | failed
  | canceled
deriving DecidableEq

/-- The string value of a task state. -/
def TaskState.toStr : TaskState → String
  | .submitted => "submitted"
  | .working => "working"
  | .inputRequired => "input-required"
  | .completed => "completed"
  | .failed => "failed"
  | .canceled => "canceled"

/-- Reading a task state off a JSON document (`statusJson.state as
TaskState`). -/
def TaskState.ofStr (s : String) : Option TaskState :=
  if s = "submitted" then some .submitted
  else if s = "working" then some .working
  else if s = "input-required" then some .inputRequired
  else if s = "completed" then some .completed
  else if s = "failed" then some .failed
  else if s = "canceled" then some .canceled
  else none

/-- The `TaskStatus` class.  `new Date()` is modelled by passing the
current time as a Nat. -/
structure TaskStatus where
  state : TaskState
  message : Option A2A.Message
  timestamp : Nat

/-- The `TaskStatus` constructor (also covers `TaskStatus.withMessage`,
which calls it). -/
def TaskStatus.make (now : Nat) (state : TaskState)
    (message : Option A2A.Message) : TaskStatus :=
  ⟨state, message, now⟩

/-- `isTerminal()`: Completed, Failed or Canceled. -/
def TaskStatus.isTerminal (s : TaskStatus) : Bool :=
  s.state == TaskState.completed ||
  s.state == TaskState.failed ||
  s.state == TaskState.canceled

/-- `TaskStatus.toJSON()`: state, the message when present, and the
timestamp (the Date's ISO rendering is modelled as the decimal string
of the model time). -/
def TaskStatus.toJSON (s : TaskStatus) : Json :=
  .obj ([("state", .str s.state.toStr)]
    ++ (match s.message with | some m => [("message", m.toJSON)] | none => [])
    ++ [("timestamp", .str (toString s.timestamp))])

/-- The `Artifact` class.  The fresh uuid drawn for `artifactId` at
construction is the stored field. -/
structure Artifact where
  artifactId : String
  name : String
  parts : List A2A.Part
  description : Option String
  metadata : Option (List (String × Json))

/-- `Artifact.toJSON()`: description and metadata only when truthy. -/
def Artifact.toJSON (a : Artifact) : Json :=
  .obj ([("artifactId", .str a.artifactId),
         ("name", .str a.name),
         ("parts", .arr (a.parts.map A2A.Part.toJSON))]
    ++ (match a.description with
        | some d => if d = "" then [] else [("description", .str d)]
        | none => [])
    ++ (match a.metadata with | some md => [("metadata", .obj md)] | none => []))

/-- The `Task` class. -/
structure Task where
  id : String
  contextId : String
  status : TaskStatus
  artifacts : List Artifact
  history : List A2A.Message

/-- The `Task` constructor: fresh uuid id, contextId from the options
or a fresh uuid, status Submitted with a fresh timestamp, no artifacts,
no history. -/
def Task.make (freshId freshContextId : String) (now : Nat)
    (contextId : Option String) : Task :=
  { id := freshId
    contextId := contextId.getD freshContextId
    status := TaskStatus.make now .submitted none
    artifacts := []
    history := [] }

/-- `setStatus(state, message?)`: unconditionally replace the status
with a freshly stamped one. -/
def Task.setStatus (t : Task) (state : TaskState)
    (message : Option A2A.Message) (now : Nat) : Task :=
  { t with status := TaskStatus.make now state message }

/-- `addArtifact(artifact)`. -/
def Task.addArtifact (t : Task) (a : Artifact) : Task :=
  { t with artifacts := t.artifacts ++ [a] }

/-- `addMessage(message)`. -/
def Task.addMessage (t : Task) (m : A2A.Message) : Task :=
  { t with history := t.history ++ [m] }

/-- `isComplete()`. -/
def Task.isComplete (t : Task) : Bool := t.status.isTerminal

/-- `needsInput()`. -/
def Task.needsInput (t : Task) : Bool := t.status.state == TaskState.inputRequired

/-- `Task.toJSON()`. -/
def Task.toJSON (t : Task) : Json :=
  .obj [("id", .str t.id),
        ("contextId", .str t.contextId),
        ("status", t.status.toJSON),
        ("artifacts", .arr (t.artifacts.map Artifact.toJSON)),
        ("history", .arr (t.history.map A2A.Message.toJSON))]

/-- `Task.fromJSON(json)`: build a fresh Task with the document's
contextId, overwrite its id with the document's id, and rebuild the
status from the state string alone (fresh timestamp, no message).
Artifacts are not parsed (the source's body is a comment) and history
is never touched. -/
def Task.fromJSON (freshId freshContextId : String) (now : Nat) (j : Json) :
    Option Task := do
  let task := Task.make freshId freshContextId now ((j.lookup "contextId").bind Json.asStr)
  let id ← (j.lookup "id").bind Json.asStr
  let statusJson ← (j.lookup "status").bind Json.asObj
  let stateStr ← ((Json.obj statusJson).lookup "state").bind Json.asStr
  let state ← TaskState.ofStr stateStr
  some { task with id := id, status := TaskStatus.make now state none }

/-! ## Agent card (agent-card.ts) -/

/-- Options for creating a skill. -/
structure SkillOptions where
  tags : Option (List String) := none
  examples : Option (List String) := none
  inputModes : Option (List String) := none
  outputModes : Option (List String) := none

/-- The `AgentSkill` class. -/
structure AgentSkill where
  id : String
  name : String
  description : String
  tags : List String
  examples : List String
  inputModes : List String
  outputModes : List String

/-- The `AgentSkill` constructor: tags and examples default to `[]`,
the mode lists default to `["text/plain"]`. -/
def AgentSkill.make (id name description : String) (options : SkillOptions) :
    AgentSkill :=
  { id := id
    name := name
    description := description
    tags := options.tags.getD []
    examples := options.examples.getD []
    inputModes := options.inputModes.getD ["text/plain"]
    outputModes := options.outputModes.getD ["text/plain"] }

/-- `AgentSkill.toJSON()`: all seven fields, unconditionally. -/
def AgentSkill.toJSON (s : AgentSkill) : Json :=
  .obj [("id", .str s.id),
        ("name", .str s.name),
        ("description", .str s.description),
        ("tags", .arr (s.tags.map Json.str)),
        ("examples", .arr (s.examples.map Json.str)),
        ("inputModes", .arr (s.inputModes.map Json.str)),
        ("outputModes", .arr (s.outputModes.map Json.str))]

/-- How `AgentCard.fromJSON` rebuilds one skill: id, name, description,
tags and examples from the document; input/output modes are never
passed, so the constructor defaults apply. -/
def AgentSkill.fromJSON (j : Json) : Option AgentSkill := do
  let id ← (j.lookup "id").bind Json.asStr
  let name ← (j.lookup "name").bind Json.asStr
  let description ← (j.lookup "description").bind Json.asStr
  some (AgentSkill.make id name description
    { tags := (j.lookup "tags").bind Json.asStrList
      examples := (j.lookup "examples").bind Json.asStrList })

/-- The `AgentCapabilities` class (all flags default to false). -/
structure AgentCapabilities where
  streaming : Bool := false
  pushNotifications : Bool := false
  stateTransitionHistory : Bool := false
  mxpTransport : Bool := false
  mxpEndpoint : Option String := none
deriving DecidableEq

/-- `AgentCapabilities.toJSON()`: the four flags, plus the endpoint when
truthy. -/
def AgentCapabilities.toJSON (c : AgentCapabilities) : Json :=
  .obj ([("streaming", .bool c.streaming),
         ("pushNotifications", .bool c.pushNotifications),
         ("stateTransitionHistory", .bool c.stateTransitionHistory),
         ("mxpTransport", .bool c.mxpTransport)]
    ++ (match c.mxpEndpoint with
        | some e => if e = "" then [] else [("mxpEndpoint", .str e)]
        | none => []))

/-- Provider information ({ organization, url? }). -/
structure Provider where
  organization : String
  url : Option String
deriving DecidableEq

/-- JSON.stringify of the raw provider record. -/
def Provider.toJSON (p : Provider) : Json :=
  .obj ([("organization", .str p.organization)]
    ++ (match p.url with | some u => [("url", .str u)] | none => []))

/-- Reading the provider back (`data.provider` cast). -/
def Provider.fromJSON (j : Json) : Option Provider := do
  let organization ← (j.lookup "organization").bind Json.asStr
  some ⟨organization, (j.lookup "url").bind Json.asStr⟩

/-- A security scheme (the union type is modelled with the `type`
discriminator as a string). -/
structure SecurityScheme where
  type : String
  scheme : Option String
  bearerFormat : Option String
  openIdConnectUrl : Option String
deriving DecidableEq

/-- One entry of the card's `security` array. -/
structure SecurityEntry where
  name : String
  scheme : SecurityScheme
  scopes : List String
deriving DecidableEq

/-- JSON.stringify of a security scheme record. -/
def SecurityScheme.toJSON (s : SecurityScheme) : Json :=
  .obj ([("type", .str s.type)]
    ++ (match s.scheme with | some v => [("scheme", .str v)] | none => [])
    ++ (match s.bearerFormat with | some v => [("bearerFormat", .str v)] | none => [])
    ++ (match s.openIdConnectUrl with | some v => [("openIdConnectUrl", .str v)] | none => []))

/-- JSON.stringify of a security entry. -/
def SecurityEntry.toJSON (e : SecurityEntry) : Json :=
  .obj [("name", .str e.name),
        ("scheme", e.scheme.toJSON),
        ("scopes", .arr (e.scopes.map Json.str))]

/-- An entry of `additionalInterfaces`: { url, transport }. -/
structure InterfaceEntry where
  url : String
  transport : String
deriving DecidableEq

/-- JSON.stringify of an interface entry. -/
def InterfaceEntry.toJSON (e : InterfaceEntry) : Json :=
  .obj [("url", .str e.url), ("transport", .str e.transport)]

/-- Reading an interface entry back (cast, no validation in the
source). -/
def InterfaceEntry.fromJSON (j : Json) : Option InterfaceEntry := do
  let url ← (j.lookup "url").bind Json.asStr
  let transport ← (j.lookup "transport").bind Json.asStr
  some ⟨url, transport⟩

/-- The `AgentCard` class. -/
structure AgentCard where
  protocolVersion : String
  name : String
  description : String
  url : String
  provider : Option Provider
  version : Option String
  capabilities : AgentCapabilities
  skills : List AgentSkill
  defaultInputModes : List String
  defaultOutputModes : List String
  additionalInterfaces : List InterfaceEntry
  security : List SecurityEntry

/-- The `AgentCard` constructor. -/
def AgentCard.make (name description url : String)
    (provider : Option Provider) (version : Option String) : AgentCard :=
  { protocolVersion := "0.3.0"
    name := name
    description := description
    url := url
    provider := provider
    version := version
    capabilities := {}
    skills := []
    defaultInputModes := ["text/plain", "application/json"]
    defaultOutputModes := ["text/plain", "application/json"]
    additionalInterfaces := []
    security := [] }

/-- `AgentCard.toJSON()` (the source serializes to a string; the model
keeps the JSON value).  provider/version only when truthy;
additionalInterfaces and security only when nonempty. -/
def AgentCard.toJSON (c : AgentCard) : Json :=
  .obj ([("protocolVersion", .str c.protocolVersion),
         ("name", .str c.name),
         ("description", .str c.description),
         ("url", .str c.url)]
    ++ (match c.provider with | some p => [("provider", p.toJSON)] | none => [])
    ++ (match c.version with
        | some v => if v = "" then [] else [("version", .str v)]
        | none => [])
    ++ [("capabilities", c.capabilities.toJSON),
        ("skills", .arr (c.skills.map AgentSkill.toJSON)),
        ("defaultInputModes", .arr (c.defaultInputModes.map Json.str)),
        ("defaultOutputModes", .arr (c.defaultOutputModes.map Json.str))]
    ++ (match c.additionalInterfaces with
        | [] => []
        | is => [("additionalInterfaces", .arr (is.map InterfaceEntry.toJSON))])
    ++ (match c.security with
        | [] => []
        | es => [("security", .arr (es.map SecurityEntry.toJSON))]))

/-- `AgentCard.fromJSON(json)`: constructor with name/description/url/
provider/version, then the three capability flags that are read back
(`stateTransitionHistory` is not), then skills (without mode lists),
then additionalInterfaces.  defaultInputModes, defaultOutputModes and
security are never read. -/
def AgentCard.fromJSON (j : Json) : Option AgentCard := do
  let name ← (j.lookup "name").bind Json.asStr
  let description ← (j.lookup "description").bind Json.asStr
  let url ← (j.lookup "url").bind Json.asStr
  let provider ← match j.lookup "provider" with
    | some pj => (Provider.fromJSON pj).map some
    | none => some none
  let card := AgentCard.make name description url provider
    ((j.lookup "version").bind Json.asStr)
  let capabilities ← match j.lookup "capabilities" with
    | none => some card.capabilities
    | some cj =>
      some
        { streaming := ((cj.lookup "streaming").map Json.truthy).getD false
          pushNotifications := ((cj.lookup "pushNotifications").map Json.truthy).getD false
          stateTransitionHistory := false
          mxpTransport := ((cj.lookup "mxpTransport").map Json.truthy).getD false
          mxpEndpoint :=
            if ((cj.lookup "mxpTransport").map Json.truthy).getD false then
              (cj.lookup "mxpEndpoint").bind Json.asStr
            else none }
  let skills ← match j.lookup "skills" with
    | none => some card.skills
    | some sj => (sj.asArr).bind (fun items => items.mapM AgentSkill.fromJSON)
  let additionalInterfaces ← match j.lookup "additionalInterfaces" with
    | none => some card.additionalInterfaces
    | some aj => (aj.asArr).bind (fun items => items.mapM InterfaceEntry.fromJSON)
  some { card with
    capabilities := capabilities
    skills := skills
    additionalInterfaces := additionalInterfaces }

/-- What an AgentCard JSON round trip preserves: everything except
`stateTransitionHistory` (never read back), the endpoint when MXP
transport is off, the skills' mode lists, the default mode lists, and
`security` (all reset to constructor defaults by `fromJSON`). -/
def AgentCard.jsonNormalize (c : AgentCard) : AgentCard :=
  { protocolVersion := "0.3.0"
    name := c.name
    description := c.description
    url := c.url
    provider := c.provider
    version := c.version
    capabilities :=
      { streaming := c.capabilities.streaming
        pushNotifications := c.capabilities.pushNotifications
        stateTransitionHistory := false
        mxpTransport := c.capabilities.mxpTransport
        mxpEndpoint :=
          if c.capabilities.mxpTransport then c.capabilities.mxpEndpoint else none }
    skills := c.skills.map (fun s =>
      { s with inputModes := ["text/plain"], outputModes := ["text/plain"] })
    defaultInputModes := ["text/plain", "application/json"]
    defaultOutputModes := ["text/plain", "application/json"]
    additionalInterfaces := c.additionalInterfaces
    security := [] }

/-! ## A2A ↔ MXP bridge (a2a/convert.ts)

The bridge writes `JSON.stringify(envelope)` into the frame payload as
UTF-8 bytes and parses it back with `JSON.parse`; the model carries the
envelope as a JSON value (`Frame Json`), delegating the text layer to
the host runtime. -/

/-- A frame whose payload is the JSON envelope it carries. -/
abbrev JsonFrame := Frame Json

/-- The result of converting from MXP. -/
structure ConversionResult where
  method : String
  message : Option A2A.Message
  task : Option Task
  payload : Json

/-- `toMxp(message)`: a Call frame with the
`{ method: "message/send", message: message.toJSON() }` envelope. -/
def toMxp (freshMessageId freshTraceId : Nat) (m : A2A.Message) : JsonFrame :=
  Frame.make freshMessageId freshTraceId MessageType.Call
    (.obj [("method", .str "message/send"), ("message", m.toJSON)]) {}

/-- `inferMethod(type)`. -/
def inferMethod (t : Nat) : String :=
  if t = MessageType.Call then "message/send"
  else if t = MessageType.Response then "message/send"
  else if t = MessageType.StreamOpen then "message/stream"
  else if t = MessageType.StreamChunk then "message/stream"
  else if t = MessageType.StreamClose then "message/stream"
  else "unknown"

/-- `fromMxp(mxpMessage)`: parse the payload envelope; the method is
`payload.method` when truthy, else inferred from the frame kind;
`payload.message` / `payload.task` are reconstructed when truthy. -/
def fromMxp (freshContextId freshMessageId freshTaskId freshTaskContextId : String)
    (now : Nat) (fr : JsonFrame) : Option ConversionResult := do
  let payload := fr.payload
  let method :=
    match (payload.lookup "method").bind Json.asStr with
    | some s => if s = "" then inferMethod fr.messageType else s
    | none => inferMethod fr.messageType
  let message ← match payload.lookup "message" with
    | some mj =>
      if mj.truthy then (A2A.Message.fromJSON freshContextId freshMessageId mj).map some
      else some none
    | none => some none
  let task ← match payload.lookup "task" with
    | some tj =>
      if tj.truthy then (Task.fromJSON freshTaskId freshTaskContextId now tj).map some
      else some none
    | none => some none
  some ⟨method, message, task, payload⟩

/-! ## In-memory signaling hub (signaling.ts) -/

/- Signaling message types (string enum). -/
inductive SignalingType where
  | offer
  | answer
  | iceCandidate
  | hangup
deriving DecidableEq

/-- A signaling message.  The source's `from` and `to` fields are named
`sender` and `recipient` (both words are reserved in Lean); the opaque
session-description/candidate payload (or null) is a blob. -/
structure SignalingMessage where
  type : SignalingType
  sender : String
  recipient : String
  payload : Option String
deriving DecidableEq

/-- The hub's `Map<string, handler>`: a shadowing association list,
where `set` prepends and `get` takes the most recent binding.  Handlers
are identified by opaque numeric tokens (the model never calls them). -/
def mapSet (m : List (String × Nat)) (key : String) (value : Nat) :
    List (String × Nat) :=
  (key, value) :: m

/-- `Map.get`: the most recently set binding for the key. -/
def mapGet (m : List (String × Nat)) (key : String) : Option Nat :=
  (m.find? (fun p => p.1 == key)).map (fun p => p.2)

/-- The observable state of an `InMemorySignalingHub` run: the handler
registry, the deliveries scheduled by `setTimeout(..., 0)` but not yet
run, and the handler invocations that have happened. -/
structure HubState where
  peers : List (String × Nat)
  pending : List (Nat × SignalingMessage)
  delivered : List (Nat × SignalingMessage)
deriving DecidableEq

/-- The events of a hub run: a provider registering its handler
(`onMessage`), a provider sending, and the event loop running one
scheduled timeout callback. -/
inductive HubEvent where
  | register (localId : String) (handler : Nat)
  | send (msg : SignalingMessage)
  | tick
deriving DecidableEq

/-- One step of the hub.  `send` looks up the handler registered under
`message.to` and, when found, schedules the delivery (it never invokes
the handler inline); `tick` runs the oldest scheduled delivery. -/
def hubStep (s : HubState) : HubEvent → HubState
  | .register localId handler => { s with peers := mapSet s.peers localId handler }
  | .send msg =>
    match mapGet s.peers msg.recipient with
    | some handler => { s with pending := s.pending ++ [(handler, msg)] }
    | none => s
  | .tick =>
    match s.pending with
    | [] => s
    | d :: rest => { s with pending := rest, delivered := s.delivered ++ [d] }

/-- Run a hub from the empty registry. -/
def runHub (events : List HubEvent) : HubState :=
  events.foldl hubStep ⟨[], [], []⟩

/-! ## Concrete inputs used by witnesses and counterexamples -/

/-- A small value-valid Call frame. -/
def frameHello : Message :=
  { version := 1, messageType := 0x01, flags := 0, priority := 0
    messageId := 5, traceId := 6, correlationId := 7, payload := [104, 105] }

/-- 64 bytes whose version byte is 2 (not 1) and whose declared payload
length is 5 although no payload bytes follow; the checksum field is 0,
which matches the hash of the truncated (empty) payload slice. -/
def badVersionBytes : List Nat :=
  [2, 0, 0, 0, 0, 0, 0, 0]
    ++ List.replicate 24 0
    ++ [5, 0, 0, 0]
    ++ List.replicate 28 0

/-- 64 bytes whose checksum field is 1 while the (empty) payload slice
hashes to 0. -/
def badChecksumBytes : List Nat :=
  List.replicate 48 0 ++ [1] ++ List.replicate 15 0

/-- A completed task. -/
def taskDone : Task :=
  { id := "t1", contextId := "c1"
    status := { state := .completed, message := none, timestamp := 0 }
    artifacts := [], history := [] }

/-- A small user message. -/
def msgHello : A2A.Message :=
  { role := .user, parts := [A2A.Part.mkText "hi"]
    contextId := "ctx-1", messageId := "mid-1", taskId := none, metadata := none }

/-- A task with one message of history. -/
def taskWithHistory : Task :=
  { id := "t2", contextId := "c2"
    status := { state := .submitted, message := none, timestamp := 0 }
    artifacts := [], history := [msgHello] }

/-- A signaling message addressed to peer-3. -/
def sigMsgToPeer3 : SignalingMessage :=
  { type := .offer, sender := "peer-1", recipient := "peer-3", payload := none }

/-- A hub run with handlers for peer-2 and peer-3 in which peer-1 sends
to peer-3 and the event loop then runs the scheduled delivery. -/
def hubTrace : List HubEvent :=
  [.register "peer-2" 2, .register "peer-3" 3, .send sigMsgToPeer3, .tick]

/-- A small agent card with no optional content. -/
def cardSample : AgentCard :=
  { protocolVersion := "0.3.0", name := "agent", description := "demo"
    url := "http://example"
    provider := none, version := none
    capabilities :=
      { streaming := true, pushNotifications := false
        stateTransitionHistory := false, mxpTransport := false, mxpEndpoint := none }
    skills := []
    defaultInputModes := ["text/plain", "application/json"]
    defaultOutputModes := ["text/plain", "application/json"]
    additionalInterfaces := [], security := [] }

/-! ## Arithmetic helper lemmas -/

theorem mask64_eq : (0xffffffffffffffff : Nat) = 2 ^ 64 - 1 := by norm_num

theorem and_mask64_eq_mod (x : Nat) : x &&& 0xffffffffffffffff = x % 2 ^ 64 := by
  rw [mask64_eq]
  exact Nat.and_pow_two_sub_one_eq_mod x 64

theorem and_mask8_eq_mod (x : Nat) : x &&& 0xff = x % 2 ^ 8 := by
  have h : (0xff : Nat) = 2 ^ 8 - 1 := by norm_num
  rw [h]
  exact Nat.and_pow_two_sub_one_eq_mod x 8

/-- Bitwise or distributes over `% 2 ^ k`. -/
theorem or_mod_two_pow (a b k : Nat) :
    (a ||| b) % 2 ^ k = (a % 2 ^ k) ||| (b % 2 ^ k) := by
  apply Nat.eq_of_testBit_eq
  intro i
  simp [Nat.testBit_mod_two_pow, Nat.testBit_or]
  by_cases h : i < k <;> simp [h]

theorem bigIntToBytes_length (v n : Nat) : (bigIntToBytes v n).length = n := by
  induction n generalizing v with
  | zero => rfl
  | succ m ih => simp [bigIntToBytes, ih]

theorem bytesToBigInt_cons (b : Nat) (rest : List Nat) :
    bytesToBigInt (b :: rest) = (bytesToBigInt rest <<< 8) ||| b := rfl

/-- Little-endian decode of a little-endian encode returns the value
modulo `2 ^ (8 * n)`. -/
theorem bytesToBigInt_bigIntToBytes (v n : Nat) :
    bytesToBigInt (bigIntToBytes v n) = v % 2 ^ (8 * n) := by
  induction n generalizing v with
  | zero => simp [bigIntToBytes, bytesToBigInt, Nat.mod_one]
  | succ m ih =>
    rw [bigIntToBytes, bytesToBigInt_cons, ih, and_mask8_eq_mod,
      Nat.shiftRight_eq_div_pow, Nat.shiftLeft_eq]
    have hlt : v % 2 ^ 8 < 2 ^ 8 := Nat.mod_lt _ (by norm_num)
    have key := Nat.mul_add_lt_is_or (b := v % 2 ^ 8) hlt (v / 2 ^ 8 % 2 ^ (8 * m))
    have hpow : (2 : Nat) ^ (8 * (m + 1)) = 2 ^ 8 * 2 ^ (8 * m) := by
      rw [← pow_add]; ring_nf
    rw [Nat.mul_comm, ← key, hpow, Nat.mod_mul]
    omega

/-- The checksum hash always fits in 64 bits. -/
theorem xxhash64_lt (data : List Nat) : xxhash64 data < 2 ^ 64 := by
  have step : ∀ (l : List Nat) (a : Nat), a < 2 ^ 64 →
      List.foldl
        (fun hash b =>
          let h1 := (hash ^^^ (b * 11400714785074694791)) &&& 0xffffffffffffffff
          (((h1 <<< 31) ||| (h1 >>> 33)) * 14029467366897019727) &&& 0xffffffffffffffff)
        a l < 2 ^ 64 := by
    intro l
    induction l with
    | nil => intro a ha; simpa using ha
    | cons b rest ih =>
      intro a _
      apply ih
      calc _ ≤ (0xffffffffffffffff : Nat) := Nat.and_le_right
        _ < 2 ^ 64 := by norm_num
  exact step data 0 (by norm_num)

/-! ## Codec lemmas -/

theorem encodeHeader_length (m : Message) : (encodeHeader m).length = 64 := by
  simp [encodeHeader, bigIntToBytes_length]

theorem drop8_encodeHeader (m : Message) :
    (encodeHeader m).drop 8 =
      bigIntToBytes m.messageId 8
        ++ (bigIntToBytes m.traceId 8
        ++ (bigIntToBytes m.correlationId 8
        ++ (bigIntToBytes m.payload.length 4
        ++ ([0, 0, 0, 0, 0, 0, 0, 0, 0, 0, 0, 0]
        ++ (bigIntToBytes (xxhash64 m.payload) 8
        ++ [0, 0, 0, 0, 0, 0, 0, 0]))))) := by
  rw [encodeHeader]
  exact List.drop_left' rfl

theorem drop16_encodeHeader (m : Message) :
    (encodeHeader m).drop 16 =
      bigIntToBytes m.traceId 8
        ++ (bigIntToBytes m.correlationId 8
        ++ (bigIntToBytes m.payload.length 4
        ++ ([0, 0, 0, 0, 0, 0, 0, 0, 0, 0, 0, 0]
        ++ (bigIntToBytes (xxhash64 m.payload) 8
        ++ [0, 0, 0, 0, 0, 0, 0, 0])))) := by
  have hd : ((encodeHeader m).drop 8).drop 8 = (encodeHeader m).drop 16 := by
    rw [List.drop_drop]
  rw [← hd, drop8_encodeHeader, List.drop_left' (bigIntToBytes_length _ 8)]

theorem drop24_encodeHeader (m : Message) :
    (encodeHeader m).drop 24 =
      bigIntToBytes m.correlationId 8
        ++ (bigIntToBytes m.payload.length 4
        ++ ([0, 0, 0, 0, 0, 0, 0, 0, 0, 0, 0, 0]
        ++ (bigIntToBytes (xxhash64 m.payload) 8
        ++ [0, 0, 0, 0, 0, 0, 0, 0]))) := by
  have hd : ((encodeHeader m).drop 16).drop 8 = (encodeHeader m).drop 24 := by
    rw [List.drop_drop]
  rw [← hd, drop16_encodeHeader, List.drop_left' (bigIntToBytes_length _ 8)]

theorem drop32_encodeHeader (m : Message) :
    (encodeHeader m).drop 32 =
      bigIntToBytes m.payload.length 4
        ++ ([0, 0, 0, 0, 0, 0, 0, 0, 0, 0, 0, 0]
        ++ (bigIntToBytes (xxhash64 m.payload) 8
        ++ [0, 0, 0, 0, 0, 0, 0, 0])) := by
  have hd : ((encodeHeader m).drop 24).drop 8 = (encodeHeader m).drop 32 := by
    rw [List.drop_drop]
  rw [← hd, drop24_encodeHeader, List.drop_left' (bigIntToBytes_length _ 8)]

theorem drop48_encodeHeader (m : Message) :
    (encodeHeader m).drop 48 =
      bigIntToBytes (xxhash64 m.payload) 8 ++ [0, 0, 0, 0, 0, 0, 0, 0] := by
  have hd : ((encodeHeader m).drop 32).drop 16 = (encodeHeader m).drop 48 := by
    rw [List.drop_drop]
  rw [← hd, drop32_encodeHeader]
  have h4 : (bigIntToBytes m.payload.length 4
      ++ ([0, 0, 0, 0, 0, 0, 0, 0, 0, 0, 0, 0]
      ++ (bigIntToBytes (xxhash64 m.payload) 8 ++ [0, 0, 0, 0, 0, 0, 0, 0]))).drop 4 =
      [0, 0, 0, 0, 0, 0, 0, 0, 0, 0, 0, 0]
        ++ (bigIntToBytes (xxhash64 m.payload) 8 ++ [0, 0, 0, 0, 0, 0, 0, 0]) :=
    List.drop_left' (bigIntToBytes_length _ 4)
  have hd2 : ∀ l : List Nat, l.drop 16 = (l.drop 4).drop 12 := by
    intro l; rw [List.drop_drop]
  rw [hd2, h4]
  exact List.drop_left' rfl

/-- Decoding the header produced by `encodeHeader` recovers every field
(the encoder truncates single bytes to 8 bits, the ids to 64 bits, the
payload length to 32 bits). -/
theorem decodeHeader_encodeHeader (m : Message) :
    decodeHeader (encodeHeader m) = .ok
      { version := m.version % 256
        messageType := m.messageType % 256
        flags := m.flags % 256
        priority := m.priority % 256
        messageId := m.messageId % 2 ^ 64
        traceId := m.traceId % 2 ^ 64
        correlationId := m.correlationId % 2 ^ 64
        payloadLength := m.payload.length % 2 ^ 32
        checksum := xxhash64 m.payload } := by
  have hnot : ¬ (encodeHeader m).length < 64 := by
    rw [encodeHeader_length]; omega
  rw [decodeHeader, if_neg hnot, Except.ok.injEq, MessageHeader.mk.injEq]
  refine ⟨rfl, rfl, rfl, rfl, ?_, ?_, ?_, ?_, ?_⟩
  · rw [drop8_encodeHeader, List.take_left' (bigIntToBytes_length _ 8),
      bytesToBigInt_bigIntToBytes]
  · rw [drop16_encodeHeader, List.take_left' (bigIntToBytes_length _ 8),
      bytesToBigInt_bigIntToBytes]
  · rw [drop24_encodeHeader, List.take_left' (bigIntToBytes_length _ 8),
      bytesToBigInt_bigIntToBytes]
  · rw [drop32_encodeHeader, List.take_left' (bigIntToBytes_length _ 4),
      bytesToBigInt_bigIntToBytes]
  · rw [drop48_encodeHeader, List.take_left' (bigIntToBytes_length _ 8),
      bytesToBigInt_bigIntToBytes, Nat.mod_eq_of_lt (xxhash64_lt _)]

theorem take64_encode_append (m : Message) (t : List Nat) :
    (encode m ++ t).take 64 = encodeHeader m := by
  rw [encode, List.append_assoc]
  exact List.take_left' (encodeHeader_length m)

theorem drop64_encode_append (m : Message) (t : List Nat) :
    (encode m ++ t).drop 64 = m.payload ++ t := by
  rw [encode, List.append_assoc]
  exact List.drop_left' (encodeHeader_length m)

/-- `decodeRaw` on encoder output (with any trailing bytes): the header
round-trips and the payload slice is exactly the encoded payload. -/
theorem decodeRaw_encode_append (m : Message) (t : List Nat)
    (hlen : m.payload.length < 2 ^ 32) :
    decodeRaw (encode m ++ t) = .ok
      ({ version := m.version % 256
         messageType := m.messageType % 256
         flags := m.flags % 256
         priority := m.priority % 256
         messageId := m.messageId % 2 ^ 64
         traceId := m.traceId % 2 ^ 64
         correlationId := m.correlationId % 2 ^ 64
         payloadLength := m.payload.length % 2 ^ 32
         checksum := xxhash64 m.payload }, m.payload) := by
  rw [decodeRaw, take64_encode_append, decodeHeader_encodeHeader]
  show (if xxhash64 (((encode m ++ t).drop 64).take (m.payload.length % 2 ^ 32)) ≠
      xxhash64 m.payload then _ else _) = _
  rw [drop64_encode_append, Nat.mod_eq_of_lt hlen, List.take_left, if_neg (by simp)]

/-- `decode` on encoder output (with any trailing bytes) recovers the
original frame when its fields are in range. -/
theorem decode_encode_append (m : Message) (t : List Nat) (fm ft : Nat)
    (hv : valueValid m) :
    decode fm ft (encode m ++ t) = .ok m := by
  obtain ⟨h1, hkind, hfl, hpr, hmi, hti, hci, hpl⟩ := hv
  have hk : m.messageType < 256 := by
    have hall : ∀ x ∈ [0x01, 0x02, 0x03, 0x04, 0x10, 0x11, 0x12, 0x20, 0x21, 0x22,
        0xF0, 0xF1], x < 256 := by decide
    exact hall _ hkind
  have hlen : m.payload.length < 2 ^ 32 := by
    calc m.payload.length ≤ 16 * 1024 * 1024 := hpl
      _ < 2 ^ 32 := by norm_num
  have hnot : ¬ (encode m ++ t).length < 64 := by
    simp [encode, encodeHeader_length]
  rw [decode, if_neg hnot, decodeRaw_encode_append m t hlen]
  show Except.ok _ = _
  congr 1
  obtain ⟨ver, mt, fl, pr, mi, ti, ci, pl⟩ := m
  simp only at h1 hk hfl hpr hmi hti hci ⊢
  subst h1
  norm_num at hmi hti hci
  simp [Frame.make, Nat.mod_eq_of_lt hk, Nat.mod_eq_of_lt hfl, Nat.mod_eq_of_lt hpr,
    Nat.mod_eq_of_lt hmi, Nat.mod_eq_of_lt hti, Nat.mod_eq_of_lt hci]

/-! ## Claim C1 and C10: codec round trip -/

/-- C1: for every value-valid frame (valid kind, payload at most
16 MiB, fields in range), decode(encode(f)) recovers f exactly — all
nine header fields including the wire-supplied message id (the freshly
drawn ids `fm`/`ft` of the decode-side constructor do not leak into the
result), and the payload. -/
theorem decode_encode_roundtrip (f : Message) (fm ft : Nat) (hv : valueValid f) :
    decode fm ft (encode f) = .ok f := by
  have h := decode_encode_append f [] fm ft hv
  simpa using h

theorem decode_encode_roundtrip_witness :
    valueValid frameHello ∧ decode 0 0 (encode frameHello) = .ok frameHello :=
  ⟨by decide, decode_encode_roundtrip frameHello 0 0 (by decide)⟩

/-- C10: decode reads exactly 64 + payload-length bytes; any trailing
bytes after the declared payload are ignored, and decoding
`encode f ++ t` still returns exactly `f`. -/
theorem decode_ignores_trailing (f : Message) (t : List Nat) (fm ft : Nat)
    (hv : valueValid f) :
    decode fm ft (encode f ++ t) = .ok f :=
  decode_encode_append f t fm ft hv

theorem decode_ignores_trailing_witness :
    valueValid frameHello ∧ decode 0 0 (encode frameHello ++ [9, 9, 9]) = .ok frameHello :=
  ⟨by decide, decode_ignores_trailing frameHello [9, 9, 9] 0 0 (by decide)⟩

/-! ## Claim C2: decode failure conditions -/

/-- C2 (counterexample): a 64-byte input whose version byte is 2 (not
1) and whose declared payload length is 5 (so declared length + 64
exceeds the input length) is decoded successfully — decode performs
neither the UnsupportedVersion nor the PayloadLengthOverflow check
claimed by the spec. -/
theorem decode_no_validation_counterexample :
    badVersionBytes.getD 0 0 = 2 ∧
    badVersionBytes.length = 64 ∧
    bytesToBigInt (((badVersionBytes.take 64).drop 32).take 4) = 5 ∧
    decode 0 0 badVersionBytes = .ok
      { version := 1, messageType := 0, flags := 0, priority := 0
        messageId := 0, traceId := 0, correlationId := 0, payload := [] } :=
  ⟨rfl, rfl, rfl, rfl⟩

/-- C2 (amended): decode fails with TooShort exactly when fewer than 64
bytes are supplied, and with ChecksumMismatch exactly when the hash
recomputed over the payload slice (the declared length, clamped to the
available bytes) differs from the header checksum field; these are its
only failure conditions — the version byte and the declared payload
length are never validated. -/
theorem decode_error_conditions (fm ft : Nat) (bytes : List Nat) :
    (decode fm ft bytes = .error .tooShort ↔ bytes.length < 64) ∧
    (∀ e, decode fm ft bytes = .error e → e = .tooShort ∨ e = .checksumMismatch) ∧
    (64 ≤ bytes.length →
      (decode fm ft bytes = .error .checksumMismatch ↔
        xxhash64 ((bytes.drop 64).take (bytesToBigInt (((bytes.take 64).drop 32).take 4))) ≠
          bytesToBigInt (((bytes.take 64).drop 48).take 8))) := by
  by_cases hlen : bytes.length < 64
  · have hd : decode fm ft bytes = .error .tooShort := by
      rw [decode, if_pos hlen]
    refine ⟨by simp [hd, hlen], ?_, ?_⟩
    · intro e he
      rw [hd] at he
      simp at he
      exact Or.inl he.symm
    · intro hge; omega
  · have htake : (bytes.take 64).length = 64 := by
      rw [List.length_take]; omega
    have hnotshort : ¬ (bytes.take 64).length < 64 := by omega
    have hraw : decodeRaw bytes =
        if xxhash64 ((bytes.drop 64).take (bytesToBigInt (((bytes.take 64).drop 32).take 4))) ≠
            bytesToBigInt (((bytes.take 64).drop 48).take 8)
        then .error .checksumMismatch
        else .ok
          ({ version := (bytes.take 64).getD 0 0
             messageType := (bytes.take 64).getD 1 0
             flags := (bytes.take 64).getD 2 0
             priority := (bytes.take 64).getD 3 0
             messageId := bytesToBigInt (((bytes.take 64).drop 8).take 8)
             traceId := bytesToBigInt (((bytes.take 64).drop 16).take 8)
             correlationId := bytesToBigInt (((bytes.take 64).drop 24).take 8)
             payloadLength := bytesToBigInt (((bytes.take 64).drop 32).take 4)
             checksum := bytesToBigInt (((bytes.take 64).drop 48).take 8) },
           (bytes.drop 64).take (bytesToBigInt (((bytes.take 64).drop 32).take 4))) := by
      rw [decodeRaw, decodeHeader, if_neg hnotshort]
      rfl
    by_cases hcs :
        xxhash64 ((bytes.drop 64).take (bytesToBigInt (((bytes.take 64).drop 32).take 4))) =
          bytesToBigInt (((bytes.take 64).drop 48).take 8)
    · have hok : ∃ msg, decode fm ft bytes = .ok msg := by
        rw [decode, if_neg hlen, hraw, if_neg (by simpa using hcs)]
        exact ⟨_, rfl⟩
      obtain ⟨msg0, hdec⟩ := hok
      refine ⟨by simp [hdec, hlen], ?_, ?_⟩
      · intro e he
        rw [hdec] at he
        simp at he
      · intro _
        simp [hdec, hcs]
    · have hdec : decode fm ft bytes = .error .checksumMismatch := by
        rw [decode, if_neg hlen, hraw, if_pos hcs]
        rfl
      refine ⟨by simp [hdec, hlen], ?_, ?_⟩
      · intro e he
        rw [hdec] at he
        simp at he
        exact Or.inr he.symm
      · intro _
        simp [hdec, hcs]

theorem decode_error_conditions_witness :
    decode 0 0 badChecksumBytes = .error .checksumMismatch ∧
    (DecodeError.checksumMismatch = .tooShort ∨
      DecodeError.checksumMismatch = .checksumMismatch) := by
  have h := decode_error_conditions 0 0 badChecksumBytes
  have hmm := (h.2.2 (by decide)).mpr (by decide)
  exact ⟨hmm, h.2.1 _ hmm⟩

/-! ## Claim C3: the checksum algorithm -/

theorem foldl_hom_of_step_eq {α β : Type} (f g : β → α → β)
    (h : ∀ b a, f b a = g b a) :
    ∀ (l : List α) (init : β), l.foldl f init = l.foldl g init := by
  intro l
  induction l with
  | nil => intro init; rfl
  | cons a rest ih =>
    intro init
    rw [List.foldl_cons, List.foldl_cons, h, ih]

/-- C3: the source checksum loop computes exactly the spec algorithm:
from h = 0, for each byte b in order, h := (h XOR (b * P1)) mod 2^64,
then h := (rotl31(h) * P2) mod 2^64. -/
theorem xxhash64_matches_spec (data : List Nat) :
    xxhash64 data = xxhash64Spec data := by
  unfold xxhash64 xxhash64Spec
  apply foldl_hom_of_step_eq
  intro h b
  show (((((h ^^^ b * 11400714785074694791) &&& 0xffffffffffffffff) <<< 31) |||
      (((h ^^^ b * 11400714785074694791) &&& 0xffffffffffffffff) >>> 33)) *
      14029467366897019727) &&& 0xffffffffffffffff =
    (rotl31 ((h ^^^ b * 11400714785074694791) % 2 ^ 64) * 14029467366897019727) % 2 ^ 64
  rw [and_mask64_eq_mod, and_mask64_eq_mod, rotl31]
  have key : ((((h ^^^ b * 11400714785074694791) % 2 ^ 64) <<< 31) |||
        (((h ^^^ b * 11400714785074694791) % 2 ^ 64) >>> 33)) % 2 ^ 64 =
      (((((h ^^^ b * 11400714785074694791) % 2 ^ 64) <<< 31) % 2 ^ 64) |||
        (((h ^^^ b * 11400714785074694791) % 2 ^ 64) >>> 33)) % 2 ^ 64 := by
    rw [or_mod_two_pow, or_mod_two_pow, Nat.mod_mod_of_dvd _ dvd_rfl]
  rw [Nat.mul_mod, key, ← Nat.mul_mod]

/-! ## Claim C4: ping and pong -/

/-- C4: ping() yields kind Ping, empty payload, correlation id 0; for
every frame p, pong(p) yields kind Pong, empty payload, correlation id
p.messageId and trace id p.traceId. -/
theorem ping_pong_spec (fm ft fm2 ft2 : Nat) (p : Message) :
    (Message.ping fm ft).messageType = MessageType.Ping ∧
    (Message.ping fm ft).payload = [] ∧
    (Message.ping fm ft).correlationId = 0 ∧
    (Message.pong fm2 ft2 p).messageType = MessageType.Pong ∧
    (Message.pong fm2 ft2 p).payload = [] ∧
    (Message.pong fm2 ft2 p).correlationId = p.messageId ∧
    (Message.pong fm2 ft2 p).traceId = p.traceId :=
  ⟨rfl, rfl, rfl, rfl, rfl, rfl, rfl⟩

/-! ## Claim C5: task lifecycle -/

/-- C5 (counterexample): setStatus out of a terminal state is not
rejected — on a Completed task (isTerminal true) a further
setStatus(Working) changes the state to Working, and a fresh task taken
Submitted → Completed → Working ends in Working. -/
theorem setStatus_terminal_counterexample :
    taskDone.status.isTerminal = true ∧
    (taskDone.setStatus .working none 5).status.state = TaskState.working ∧
    ((((Task.make "t" "c" 0 none).setStatus .completed none 1).setStatus
        .working none 2).status.state = TaskState.working) :=
  ⟨rfl, rfl, rfl⟩

/-- C5 (amended): setStatus never rejects: it unconditionally replaces
the status with the new state, optional message and a fresh timestamp —
also out of the terminal states Completed/Failed/Canceled (exactly the
states isTerminal reports) — leaving every other task field unchanged. -/
theorem setStatus_unconditional (t : Task) (st : TaskState)
    (msg : Option A2A.Message) (now : Nat) :
    (t.setStatus st msg now).status = { state := st, message := msg, timestamp := now } ∧
    (t.setStatus st msg now).id = t.id ∧
    (t.setStatus st msg now).contextId = t.contextId ∧
    (t.setStatus st msg now).artifacts = t.artifacts ∧
    (t.setStatus st msg now).history = t.history ∧
    TaskStatus.isTerminal { state := st, message := msg, timestamp := now } =
      (st == TaskState.completed || st == TaskState.failed || st == TaskState.canceled) :=
  ⟨rfl, rfl, rfl, rfl, rfl, rfl⟩

/-! ## Claim C8: factory correlation ids -/

/-- C8 (counterexample): the factory helpers do not validate the
correlation id — response(payload, 0) produces a Response frame whose
correlation id is 0, violating the claimed invariant. -/
theorem factory_zero_correlation_counterexample :
    (Message.response 1 2 [] 0 none).messageType = MessageType.Response ∧
    (Message.response 1 2 [] 0 none).correlationId = 0 :=
  ⟨rfl, rfl⟩

/-- C8 (amended): response, error, streamChunk and streamClose set the
correlation id to exactly the caller-supplied argument, and pong to the
ping's message id; the nonzero invariant therefore holds precisely when
that supplied value is nonzero — no validation is performed. -/
theorem factory_correlation_exact (fm ft corr : Nat) (payload : List Nat)
    (tid : Option Nat) (p : Message) :
    (Message.response fm ft payload corr tid).correlationId = corr ∧
    (Message.error fm ft payload corr tid).correlationId = corr ∧
    (Message.streamChunk fm ft payload corr tid).correlationId = corr ∧
    (Message.streamClose fm ft corr tid).correlationId = corr ∧
    (Message.pong fm ft p).correlationId = p.messageId :=
  ⟨rfl, rfl, rfl, rfl, rfl⟩

/-! ## Claim C9: in-memory hub isolation -/

theorem mapGet_mapSet (m : List (String × Nat)) (k k' : String) (v : Nat) :
    mapGet (mapSet m k v) k' = if k = k' then some v else mapGet m k' := by
  by_cases h : k = k'
  · subst h
    simp [mapGet, mapSet, List.find?]
  · have hb : (k == k') = false := beq_eq_false_iff_ne.mpr h
    simp [mapGet, mapSet, List.find?, h, hb]

/-- Invariant of a hub run: if the handler token `h2` is only ever
registered under "peer-2", then a registry lookup returning `h2` can
only be at "peer-2", and every scheduled or performed delivery to `h2`
is of a message addressed to "peer-2". -/
theorem hub_run_inv (h2 : Nat) :
    ∀ (tr : List HubEvent) (s : HubState),
      (∀ id hd, HubEvent.register id hd ∈ tr → hd = h2 → id = "peer-2") →
      ((∀ id, mapGet s.peers id = some h2 → id = "peer-2") ∧
        (∀ m, (h2, m) ∈ s.pending → m.recipient = "peer-2") ∧
        (∀ m, (h2, m) ∈ s.delivered → m.recipient = "peer-2")) →
      ((∀ id, mapGet (tr.foldl hubStep s).peers id = some h2 → id = "peer-2") ∧
        (∀ m, (h2, m) ∈ (tr.foldl hubStep s).pending → m.recipient = "peer-2") ∧
        (∀ m, (h2, m) ∈ (tr.foldl hubStep s).delivered → m.recipient = "peer-2")) := by
  intro tr
  induction tr with
  | nil => intro s _ hs; simpa using hs
  | cons e rest ih =>
    intro s hreg hs
    obtain ⟨hp, hq, hr⟩ := hs
    have hreg' : ∀ id hd, HubEvent.register id hd ∈ rest → hd = h2 → id = "peer-2" :=
      fun id hd hm => hreg id hd (List.mem_cons_of_mem _ hm)
    rw [List.foldl_cons]
    apply ih _ hreg'
    cases e with
    | register id hd =>
      have hstep : hubStep s (.register id hd) = { s with peers := mapSet s.peers id hd } := rfl
      rw [hstep]
      refine ⟨?_, hq, hr⟩
      intro id' hget
      simp only at hget
      rw [mapGet_mapSet] at hget
      by_cases hid : id = id'
      · subst hid
        rw [if_pos rfl] at hget
        have hhd : hd = h2 := by simpa using hget
        exact hreg id hd (List.mem_cons_self _ _) hhd
      · rw [if_neg hid] at hget
        exact hp id' hget
    | send msg =>
      cases hget : mapGet s.peers msg.recipient with
      | none =>
        have hstep : hubStep s (.send msg) = s := by
          simp [hubStep, hget]
        rw [hstep]
        exact ⟨hp, hq, hr⟩
      | some hd =>
        have hstep : hubStep s (.send msg) =
            { s with pending := s.pending ++ [(hd, msg)] } := by
          simp [hubStep, hget]
        rw [hstep]
        refine ⟨hp, ?_, hr⟩
        intro m hm
        simp only [List.mem_append, List.mem_singleton] at hm
        rcases hm with hm | hm
        · exact hq m hm
        · cases hm
          exact hp _ hget
    | tick =>
      cases hpend : s.pending with
      | nil =>
        have hstep : hubStep s .tick = s := by
          simp [hubStep, hpend]
        rw [hstep]
        exact ⟨hp, hq, hr⟩
      | cons d rest2 =>
        have hstep : hubStep s .tick =
            { s with pending := rest2, delivered := s.delivered ++ [d] } := by
          simp [hubStep, hpend]
        rw [hstep]
        refine ⟨hp, ?_, ?_⟩
        · intro m hm
          exact hq m (by rw [hpend]; exact List.mem_cons_of_mem _ hm)
        · intro m hm
          simp only [List.mem_append, List.mem_singleton] at hm
          rcases hm with hm | hm
          · exact hr m hm
          · exact hq m (by rw [hpend, hm]; exact List.mem_cons_self _ _)

/-- C9: hub `send` never invokes a handler inline (it only schedules:
the delivered log is unchanged by the send step), and in any run whose
registrations bind the handler `h2` only to "peer-2", no message
addressed to "peer-3" is ever scheduled for or delivered to `h2` — the
message is observed only by the handler registered under its `to`
peer id. -/
theorem hub_send_isolated (tr : List HubEvent) (h2 : Nat)
    (hreg : ∀ id hd, HubEvent.register id hd ∈ tr → hd = h2 → id = "peer-2") :
    (∀ (s : HubState) (msg : SignalingMessage),
        (hubStep s (.send msg)).delivered = s.delivered) ∧
    (∀ msg : SignalingMessage, msg.recipient = "peer-3" →
        (h2, msg) ∉ (runHub tr).delivered ∧ (h2, msg) ∉ (runHub tr).pending) := by
  constructor
  · intro s msg
    cases hget : mapGet s.peers msg.recipient <;> simp [hubStep, hget]
  · intro msg h3
    have hinv := hub_run_inv h2 tr ⟨[], [], []⟩ hreg
      ⟨by intro id hget; simp [mapGet, List.find?] at hget, by simp, by simp⟩
    constructor
    · intro hmem
      have hcon := hinv.2.2 msg hmem
      rw [h3] at hcon
      exact absurd hcon (by decide)
    · intro hmem
      have hcon := hinv.2.1 msg hmem
      rw [h3] at hcon
      exact absurd hcon (by decide)

theorem hub_send_isolated_witness :
    (2, sigMsgToPeer3) ∉ (runHub hubTrace).delivered := by
  have hreg : ∀ id hd, HubEvent.register id hd ∈ hubTrace → hd = 2 → id = "peer-2" := by
    intro id hd hmem he
    subst he
    simp [hubTrace, sigMsgToPeer3] at hmem
    exact hmem
  exact ((hub_send_isolated hubTrace 2 hreg).2 sigMsgToPeer3 rfl).1

/-! ## JSON round-trip lemmas (a2a/types.ts) -/

theorem mapM_map_eq_some {α β : Type} (f : α → Json) (g : Json → Option β) (r : α → β)
    (h : ∀ x, g (f x) = some (r x)) :
    ∀ l : List α, (l.map f).mapM g = some (l.map r) := by
  intro l
  induction l with
  | nil => rfl
  | cons a rest ih =>
    rw [List.map_cons, List.mapM_cons, h a, ih]
    rfl

theorem roleOfStr_toStr (r : A2A.Role) : A2A.Role.ofStr r.toStr = some r := by
  cases r <;> rfl

theorem partKindOfStr_toStr (k : A2A.PartKind) : A2A.PartKind.ofStr k.toStr = some k := by
  cases k <;> rfl

theorem taskStateOfStr_toStr (st : TaskState) : TaskState.ofStr st.toStr = some st := by
  cases st <;> rfl

/-- Every Part survives its JSON round trip exactly. -/
theorem part_fromJSON_toJSON (p : A2A.Part) :
    A2A.Part.fromJSON (A2A.Part.toJSON p) = some p := by
  obtain ⟨k, t, f, d⟩ := p
  cases k <;> cases t <;> rcases f with - | ⟨mt, _ | fd, _ | fu⟩ <;> cases d <;> rfl

/-- A Message's JSON round trip restores everything except an
empty-string taskId (dropped by JS truthiness). -/
theorem message_fromJSON_toJSON (fc fm : String) (m : A2A.Message) :
    A2A.Message.fromJSON fc fm (A2A.Message.toJSON m) = some m.jsonNormalize := by
  obtain ⟨role, parts, ctx, mid, tid, md⟩ := m
  have hparts : (parts.map A2A.Part.toJSON).mapM A2A.Part.fromJSON = some parts := by
    simpa using mapM_map_eq_some A2A.Part.toJSON A2A.Part.fromJSON id
      (fun x => part_fromJSON_toJSON x) parts
  have hloop : List.mapM.loop A2A.Part.fromJSON (parts.map A2A.Part.toJSON) [] =
      some parts := hparts
  rcases tid with - | t <;> rcases md with - | mdv
  · simp [A2A.Message.toJSON, A2A.Message.fromJSON, A2A.Message.make,
      A2A.Message.jsonNormalize, Json.lookup, List.lookup, Json.asStr, Json.asArr,
      Json.asObj, roleOfStr_toStr, hparts, hloop, Option.bind]
  · simp [A2A.Message.toJSON, A2A.Message.fromJSON, A2A.Message.make,
      A2A.Message.jsonNormalize, Json.lookup, List.lookup, Json.asStr, Json.asArr,
      Json.asObj, roleOfStr_toStr, hparts, hloop, Option.bind]
  · by_cases ht : t = ""
    · subst ht
      simp [A2A.Message.toJSON, A2A.Message.fromJSON, A2A.Message.make,
        A2A.Message.jsonNormalize, Json.lookup, List.lookup, Json.asStr, Json.asArr,
        Json.asObj, roleOfStr_toStr, hparts, hloop, Option.bind]
    · simp [A2A.Message.toJSON, A2A.Message.fromJSON, A2A.Message.make,
        A2A.Message.jsonNormalize, Json.lookup, List.lookup, Json.asStr, Json.asArr,
        Json.asObj, roleOfStr_toStr, hparts, hloop, Option.bind, ht]
  · by_cases ht : t = ""
    · subst ht
      simp [A2A.Message.toJSON, A2A.Message.fromJSON, A2A.Message.make,
        A2A.Message.jsonNormalize, Json.lookup, List.lookup, Json.asStr, Json.asArr,
        Json.asObj, roleOfStr_toStr, hparts, hloop, Option.bind]
    · simp [A2A.Message.toJSON, A2A.Message.fromJSON, A2A.Message.make,
        A2A.Message.jsonNormalize, Json.lookup, List.lookup, Json.asStr, Json.asArr,
        Json.asObj, roleOfStr_toStr, hparts, hloop, Option.bind, ht]

/-- A Task's JSON round trip keeps only id, contextId and the status
state; the status message and timestamp, the artifacts and the history
are not restored by the source's fromJSON. -/
theorem task_fromJSON_toJSON (fid fctx : String) (now : Nat) (t : Task) :
    Task.fromJSON fid fctx now (Task.toJSON t) = some
      { id := t.id, contextId := t.contextId
        status := { state := t.status.state, message := none, timestamp := now }
        artifacts := [], history := [] } := by
  obtain ⟨id, ctx, ⟨st, msg, ts⟩, arts, hist⟩ := t
  rcases msg with - | m0 <;>
    simp [Task.toJSON, Task.fromJSON, Task.make, TaskStatus.toJSON, TaskStatus.make,
      Json.lookup, List.lookup, Json.asStr, Json.asObj, taskStateOfStr_toStr, Option.bind]

theorem interfaceEntry_fromJSON_toJSON (e : InterfaceEntry) :
    InterfaceEntry.fromJSON (InterfaceEntry.toJSON e) = some e := by
  obtain ⟨u, tr⟩ := e
  rfl

theorem provider_fromJSON_toJSON (p : Provider) :
    Provider.fromJSON (Provider.toJSON p) = some p := by
  obtain ⟨org, url⟩ := p
  rcases url with - | u <;> rfl

/-- A skill's round trip resets the input/output mode lists to the
constructor defaults (never passed by the card parser). -/
theorem skill_fromJSON_toJSON (s : AgentSkill) :
    AgentSkill.fromJSON (AgentSkill.toJSON s) = some
      { s with inputModes := ["text/plain"], outputModes := ["text/plain"] } := by
  obtain ⟨sid, sname, sdesc, tags, ex, im, om⟩ := s
  have htags : (tags.map Json.str).mapM Json.asStr = some tags := by
    simpa using mapM_map_eq_some Json.str Json.asStr id (fun x => rfl) tags
  have hex : (ex.map Json.str).mapM Json.asStr = some ex := by
    simpa using mapM_map_eq_some Json.str Json.asStr id (fun x => rfl) ex
  have htagsl : List.mapM.loop Json.asStr (tags.map Json.str) [] = some tags := htags
  have hexl : List.mapM.loop Json.asStr (ex.map Json.str) [] = some ex := hex
  simp [AgentSkill.toJSON, AgentSkill.fromJSON, AgentSkill.make, Json.lookup,
    List.lookup, Json.asStr, Json.asStrList, Json.asArr, htags, hex, htagsl, hexl,
    Option.bind]

/-- An AgentCard's JSON round trip loses stateTransitionHistory, the
endpoint when MXP transport is off, the skills' mode lists, the default
mode lists and the security entries. -/
theorem card_fromJSON_toJSON (c : AgentCard) (hv : c.version ≠ some "")
    (he : c.capabilities.mxpEndpoint ≠ some "") :
    AgentCard.fromJSON (AgentCard.toJSON c) = some c.jsonNormalize := by
  obtain ⟨pv, name, desc, url, provider, version, ⟨cs, cp, csth, cmt, cep⟩,
    skills, dim, dom, ai, sec⟩ := c
  simp only at hv he
  have hskills : (skills.map AgentSkill.toJSON).mapM AgentSkill.fromJSON =
      some (skills.map (fun s =>
        { s with inputModes := ["text/plain"], outputModes := ["text/plain"] })) :=
    mapM_map_eq_some _ _ _ (fun x => skill_fromJSON_toJSON x) skills
  have hskloop : List.mapM.loop AgentSkill.fromJSON (skills.map AgentSkill.toJSON) [] =
      some (skills.map (fun s =>
        { s with inputModes := ["text/plain"], outputModes := ["text/plain"] })) := hskills
  have hai : (ai.map InterfaceEntry.toJSON).mapM InterfaceEntry.fromJSON = some ai := by
    simpa using mapM_map_eq_some InterfaceEntry.toJSON InterfaceEntry.fromJSON id
      (fun x => interfaceEntry_fromJSON_toJSON x) ai
  have hailoop : List.mapM.loop InterfaceEntry.fromJSON (ai.map InterfaceEntry.toJSON) [] =
      some ai := hai
  rcases provider with - | p <;> rcases version with - | v <;> rcases cep with - | e <;>
    rcases ai with - | ⟨a0, arest⟩ <;> rcases sec with - | ⟨s0, srest⟩ <;>
    simp_all [AgentCard.toJSON, AgentCard.fromJSON, AgentCard.make,
      AgentCard.jsonNormalize, AgentCapabilities.toJSON, Json.lookup, List.lookup,
      Json.asStr, Json.asArr, Json.truthy, provider_fromJSON_toJSON, Option.bind]

/-! ## Claim C6: A2A JSON round trips -/

/-- C6 (counterexample): a Task with one message of history does not
survive the JSON round trip — the reconstructed task's history is
empty. -/
theorem task_json_roundtrip_counterexample :
    (Task.fromJSON "f1" "f2" 0 (Task.toJSON taskWithHistory)).map Task.history =
      some [] ∧
    taskWithHistory.history = [msgHello] :=
  ⟨rfl, rfl⟩

/-- C6 (amended): an A2A Message round-trips through JSON exactly
(provided its optional taskId is not the JS-falsy empty string); a Task
round trip restores only id, contextId and the status state — the
status message and timestamp, artifacts and history are dropped; an
AgentCard round trip (with truthy version/mxpEndpoint when present)
restores everything except stateTransitionHistory, the endpoint when
MXP transport is off, the skills' input/output mode lists, the default
mode lists and the security entries, which revert to constructor
defaults. -/
theorem a2a_json_roundtrip_amended :
    (∀ (fc fm : String) (m : A2A.Message), m.taskId ≠ some "" →
      A2A.Message.fromJSON fc fm (A2A.Message.toJSON m) = some m) ∧
    (∀ (fid fctx : String) (now : Nat) (t : Task),
      Task.fromJSON fid fctx now (Task.toJSON t) = some
        { id := t.id, contextId := t.contextId
          status := { state := t.status.state, message := none, timestamp := now }
          artifacts := [], history := [] }) ∧
    (∀ c : AgentCard, c.version ≠ some "" → c.capabilities.mxpEndpoint ≠ some "" →
      AgentCard.fromJSON (AgentCard.toJSON c) = some c.jsonNormalize) := by
  refine ⟨?_, task_fromJSON_toJSON, card_fromJSON_toJSON⟩
  intro fc fm m hm
  rw [message_fromJSON_toJSON]
  simp [A2A.Message.jsonNormalize, hm]

theorem a2a_json_roundtrip_amended_witness :
    A2A.Message.fromJSON "c" "m" (A2A.Message.toJSON msgHello) = some msgHello ∧
    AgentCard.fromJSON (AgentCard.toJSON cardSample) = some cardSample.jsonNormalize :=
  ⟨a2a_json_roundtrip_amended.1 "c" "m" msgHello (by simp [msgHello]),
    a2a_json_roundtrip_amended.2.2 cardSample (by simp [cardSample])
      (by simp [cardSample])⟩

/-! ## Claim C7: A2A ↔ MXP bridge round trip -/

/-- C7: toMxp produces a Call-kind frame whose payload is the
`{ method: "message/send", message: ... }` envelope, and fromMxp on it
yields method "message/send" and a message agreeing with the original
on role, parts, contextId and messageId (everything except an
empty-string taskId, which JSON serialization drops). -/
theorem toMxp_fromMxp_roundtrip (fm ft : Nat) (fc fmid fti ftc : String) (now : Nat)
    (m : A2A.Message) :
    (toMxp fm ft m).messageType = MessageType.Call ∧
    (toMxp fm ft m).payload =
      .obj [("method", .str "message/send"), ("message", m.toJSON)] ∧
    fromMxp fc fmid fti ftc now (toMxp fm ft m) =
      some { method := "message/send", message := some m.jsonNormalize, task := none
             payload := .obj [("method", .str "message/send"), ("message", m.toJSON)] } ∧
    m.jsonNormalize.role = m.role ∧ m.jsonNormalize.parts = m.parts ∧
    m.jsonNormalize.contextId = m.contextId ∧ m.jsonNormalize.messageId = m.messageId := by
  refine ⟨rfl, rfl, ?_, rfl, rfl, rfl, rfl⟩
  have htr : (A2A.Message.toJSON m).truthy = true := by
    obtain ⟨role, parts, ctx, mid, tid, md⟩ := m
    simp [A2A.Message.toJSON, Json.truthy]
  simp [fromMxp, toMxp, Frame.make, Json.lookup, List.lookup, Json.asStr, htr,
    message_fromJSON_toJSON, Option.bind]

end Mxp

